import Mathlib

/-!
# Verification of the qr-attendance-backend scheduling and session models

Shallow embedding of the repository's data model (Mongoose schemas under
`src/src/models/`) and of the operations its specification describes.
The schema files define the stored shapes, required-field and enum
validation, hooks, and indexes; operations that exist only in the
specification (the Recurrence Expander, Override Resolver, Merge Engine
and Session Manager) are modelled from the spec and marked as such.

Dates are day numbers (`Nat`, day 0 is a Monday by convention of the
model); timestamps are milliseconds (`Int`); times of day are the
source's `"HH:MM"` strings.
-/

namespace QRAttendance

/-- A latitude/longitude pair as stored in `qrPayload.coordinates`
(coordinates are opaque to the logic verified here; the geofence
predicate is a parameter). -/
structure GeoPoint where
  latitude : Int
  longitude : Int
deriving DecidableEq, Repr

/-- The embedded QR payload snapshot of `qrCodeSessionModel.js`
(`qrPayload`): class number, subject code/name, class year, semester,
division, generation timestamp, teacher coordinates, session id and the
current rotating token. -/
structure QRPayload where
  classNumber : String
  subjectCode : String
  subjectName : String
  classYear : String
  semester : String
  division : String
  timestamp : Int
  coordinates : GeoPoint
  sessionId : String
  token : String
deriving DecidableEq, Repr

/-- A live attendance session, from `qrCodeSessionModel.js`
(`qrCodeSessionSchema`): ids, the rotating `currentToken`, the
`tokenGeneratedAt` and `sessionExpiresAt` timestamps, the embedded
payload snapshot and the `isActive` flag.  The session location is the
teacher coordinate inside the payload, exposed here as a field for the
geofence check. -/
structure QRSession where
  classId : Nat
  teacherId : Nat
  sessionId : String
  currentToken : String
  tokenGeneratedAt : Int
  sessionExpiresAt : Int
  qrPayload : QRPayload
  isActive : Bool
  location : GeoPoint
  createdAt : Int
deriving DecidableEq, Repr

/-- The outcome of a scan validation: acceptance or one of the four
distinct rejection reasons of the spec's error model
(`SessionExpiredError`, `InvalidTokenError`, `OutOfRangeError`,
`InactiveSessionError`), never a generic failure. -/
inductive ScanResult where
  | accepted
  | sessionExpiredError
  | invalidTokenError
  | outOfRangeError
  | inactiveSessionError
deriving DecidableEq, Repr

/-- Modelled from the spec: `ValidateScan(sessionId, submittedToken,
studentLocation, now)` (the Session Manager's scan validator is not in
the repository source; only the schema is).  Accept iff the session is
active, `now < sessionExpiresAt`, the submitted token equals
`currentToken`, and the student is within the configured radius of the
session's location; each failing condition yields its own rejection
reason.  The great-circle distance threshold is the `withinRadius`
parameter, configuration per the spec. -/
def validateScan (withinRadius : GeoPoint → GeoPoint → Bool) (s : QRSession)
    (submittedToken : String) (studentLocation : GeoPoint) (now : Int) : ScanResult :=
  if !s.isActive then .inactiveSessionError
  else if s.sessionExpiresAt ≤ now then .sessionExpiredError
  else if submittedToken ≠ s.currentToken then .invalidTokenError
  else if !withinRadius studentLocation s.location then .outOfRangeError
  else .accepted

/-- Modelled from the spec: `Rotate(sessionId)` — replaces
`currentToken` with a fresh value, updates `tokenGeneratedAt`, and
refreshes the embedded payload's token field; nothing else changes. -/
def rotate (s : QRSession) (newToken : String) (now : Int) : QRSession :=
  { s with
      currentToken := newToken
      tokenGeneratedAt := now
      qrPayload := { s.qrPayload with token := newToken } }

/-- A whole cadence of rotations, applied in order. -/
def rotateAll (s : QRSession) (rs : List (String × Int)) : QRSession :=
  rs.foldl (fun acc r => rotate acc r.1 r.2) s

/-- Modelled from the spec: `Close(sessionId)` — sets `isActive = false`;
does not delete the record. -/
def close (s : QRSession) : QRSession :=
  { s with isActive := false }

/-- How persisted sessions are reclaimed: either a storage-level TTL
index (delete `expireAfterSeconds` after the indexed date, restricted to
documents matching a partial filter on the active flag), or an explicit
sweep function parameterized by a grace period and an inactive-only
predicate. -/
inductive RetentionMechanism where
  | ttlIndex (expireAfterSeconds : Nat) (onlyWhenInactive : Bool)
  | explicitSweep (gracePeriodSeconds : Nat) (onlyWhenInactive : Bool)
deriving DecidableEq, Repr

/-- Whether a retention mechanism is an explicit sweep function. -/
def RetentionMechanism.isExplicitSweep : RetentionMechanism → Bool
  | .explicitSweep _ _ => true
  | .ttlIndex _ _ => false

/-- The retention configuration declared by `qrCodeSessionModel.js`
lines 77–80: `qrCodeSessionSchema.index({ sessionExpiresAt: 1 },
{ expireAfterSeconds: 60, partialFilterExpression: { isActive: false } })`
— a storage-level TTL index with a 60-second buffer applied only to
inactive sessions. -/
def qrCodeSessionRetention : RetentionMechanism :=
  .ttlIndex 60 true

/-- MongoDB TTL-deletion semantics of the index above: a session
document is eligible for automatic deletion iff it matches the partial
filter (`isActive: false`) and 60 seconds have elapsed past
`sessionExpiresAt` (timestamps in milliseconds). -/
def ttlEligible (s : QRSession) (now : Int) : Bool :=
  !s.isActive && decide (s.sessionExpiresAt + 60 * 1000 ≤ now)

/-! ## Document-level schema validation

Mongoose validates `required: true` fields and `enum` constraints on
save.  A *document* has every field optional (as submitted); validation
decides whether it may be persisted. -/

/-- The `qrPayload` subdocument as submitted: every field of
`qrCodeSessionModel.js` lines 47–58 is declared without `required`, so
each is optional. -/
structure QRPayloadDoc where
  classNumber : Option String
  subjectCode : Option String
  subjectName : Option String
  classYear : Option String
  semester : Option String
  division : Option String
  timestamp : Option Int
  coordinates : Option GeoPoint
  sessionId : Option String
  token : Option String
deriving DecidableEq, Repr

/-- The payload with every field absent. -/
def emptyQRPayloadDoc : QRPayloadDoc :=
  ⟨none, none, none, none, none, none, none, none, none, none⟩

/-- A `QRCodeSession` document as submitted for persistence
(`qrCodeSessionSchema`): `classId`, `teacherId`, `sessionId`,
`currentToken` and `sessionExpiresAt` are `required: true`; `scheduleId`,
`tokenGeneratedAt`, `isActive`, `createdAt` and the whole `qrPayload`
have defaults or are optional. -/
structure QRCodeSessionDoc where
  classId : Option Nat
  scheduleId : Option Nat
  teacherId : Option Nat
  sessionId : Option String
  currentToken : Option String
  tokenGeneratedAt : Option Int
  sessionExpiresAt : Option Int
  qrPayload : QRPayloadDoc
  isActive : Option Bool
  createdAt : Option Int
deriving DecidableEq, Repr

/-- Mongoose required-field validation of `qrCodeSessionSchema`: exactly
the five `required: true` paths must be present; no field of `qrPayload`
is checked. -/
def validateQRCodeSessionDoc (d : QRCodeSessionDoc) : Bool :=
  d.classId.isSome && d.teacherId.isSome && d.sessionId.isSome &&
    d.currentToken.isSome && d.sessionExpiresAt.isSome

/-- A concrete session document whose payload is entirely absent. -/
def sessionDocNoPayload : QRCodeSessionDoc :=
  { classId := some 1
    scheduleId := none
    teacherId := some 2
    sessionId := some "sess-1"
    currentToken := some "tok-1"
    tokenGeneratedAt := some 0
    sessionExpiresAt := some 3600000
    qrPayload := emptyQRPayloadDoc
    isActive := some true
    createdAt := some 0 }

/-! ## Day-of-week enums (`recurringScheduleModel.js` line 39,
`scheduleModel.js` line 30) -/

/-- The `dayOfWeek` enum shared by `recurringScheduleSchema` and
`scheduleSchema`: Monday through Saturday, no Sunday. -/
def scheduleDayEnum : List String :=
  ["Monday", "Tuesday", "Wednesday", "Thursday", "Friday", "Saturday"]

/-- Mongoose enum validation for a `dayOfWeek` value. -/
def validDayOfWeek (s : String) : Bool :=
  scheduleDayEnum.contains s

/-- Weekday number of a day-of-week name (day 0 of the calendar is a
Monday by convention of the model; Sunday is 6). -/
def dayNumber (s : String) : Option Nat :=
  if s = "Monday" then some 0
  else if s = "Tuesday" then some 1
  else if s = "Wednesday" then some 2
  else if s = "Thursday" then some 3
  else if s = "Friday" then some 4
  else if s = "Saturday" then some 5
  else if s = "Sunday" then some 6
  else none

/-- The weekday number of Sunday. -/
def sundayNumber : Nat := 6

/-! ## Recurring-schedule templates, overrides and instances
(`recurringScheduleModel.js`) -/

/-- A `RecurringSchedule` master template (`recurringScheduleSchema`):
class/teacher refs, day of week, `"HH:MM"` start/end, room, session
type, semester window, recurrence frequency and active flag. -/
structure Template where
  id : Nat
  classId : Nat
  teacherId : Nat
  title : String
  sessionType : String
  dayOfWeek : String
  startTime : String
  endTime : String
  roomNumber : String
  semesterStartDate : Nat
  semesterEndDate : Nat
  isRecurring : Bool
  frequency : String
  isActive : Bool
deriving DecidableEq, Repr

/-- Mongoose enum/required validation of `recurringScheduleSchema` for
the fields the logic consumes: `sessionType`, `dayOfWeek` and
`frequency` must lie in their declared enums. -/
def validTemplate (t : Template) : Bool :=
  ["lecture", "lab", "project", "tutorial"].contains t.sessionType &&
    validDayOfWeek t.dayOfWeek &&
    ["weekly", "biweekly"].contains t.frequency

/-- A `ScheduleOverride` (`scheduleOverrideSchema`): a dated exception
to a template with kind `cancel` / `reschedule` / `modify`, optional
replacement fields, a required reason and an active flag. -/
structure Override where
  id : Nat
  recurringScheduleId : Nat
  classId : Nat
  teacherId : Nat
  overrideDate : Nat
  overrideType : String
  newStartTime : Option String
  newEndTime : Option String
  newRoomNumber : Option String
  newDate : Option Nat
  reason : String
  isActive : Bool
deriving DecidableEq, Repr

/-- A generated `ScheduleInstance` (`scheduleInstanceSchema`): refs,
the concrete date, effective time/room/type, lifecycle status, override
capture fields and attendance tracking.  `occurrenceDate` is the
template occurrence the instance materializes — the `date` of the
spec's (template, date) idempotency key; `scheduledDate` is the
effective (possibly rescheduled) date stored in the schema. -/
structure ScheduleInst where
  recurringScheduleId : Nat
  overrideId : Option Nat
  classId : Nat
  teacherId : Nat
  occurrenceDate : Nat
  scheduledDate : Nat
  startTime : String
  endTime : String
  roomNumber : String
  sessionType : String
  status : String
  isOverridden : Bool
  originalStartTime : Option String
  originalEndTime : Option String
  originalRoomNumber : Option String
  overrideReason : Option String
  attendanceMarked : Bool
  attendanceCount : Nat
deriving DecidableEq, Repr

/-- Validation of a `ScheduleOverride`: the `overrideType` enum and the
required `reason` come from `scheduleOverrideSchema`; the per-kind
requirements are modelled from the spec — `reschedule` requires
`newDate` or new times, `modify` at least one replacement field,
`cancel` none.  Nothing constrains which weekday `newDate` falls on. -/
def validOverride (o : Override) : Bool :=
  ["cancel", "reschedule", "modify"].contains o.overrideType &&
    o.reason != "" &&
    (if o.overrideType = "reschedule" then
      o.newDate.isSome || o.newStartTime.isSome || o.newEndTime.isSome
    else if o.overrideType = "modify" then
      o.newStartTime.isSome || o.newEndTime.isSome || o.newRoomNumber.isSome
    else true)

/-- Modelled from the spec: `Resolve(templateId, date) → Override | none`
(the Override Resolver is not in the repository source; only the schema
is).  Returns the active override for the (template, date) key. -/
def resolve (ovs : List Override) (tid d : Nat) : Option Override :=
  ovs.find? fun o =>
    o.isActive && o.recurringScheduleId == tid && o.overrideDate == d

/-- Step in days of a recurrence frequency: 7 for `weekly`, 14 for
`biweekly`. -/
def stepOf (frequency : String) : Option Nat :=
  if frequency = "weekly" then some 7
  else if frequency = "biweekly" then some 14
  else none

/-- Modelled from the spec: the candidate dates of `Expand(template,
fromDate, toDate)` — every date in `[fromDate, toDate] ∩
[semesterStartDate, semesterEndDate]` whose weekday matches the
template's `dayOfWeek`, stepping 7 or 14 days from the first matching
date on/after `semesterStartDate`. -/
def candidateDates (t : Template) (fromDate toDate : Nat) : List Nat :=
  match dayNumber t.dayOfWeek, stepOf t.frequency with
  | some dn, some step =>
      let lo := max fromDate t.semesterStartDate
      let hi := min toDate t.semesterEndDate
      let first := t.semesterStartDate + (dn + 7 - t.semesterStartDate % 7) % 7
      (List.range (hi + 1)).filter fun d =>
        lo ≤ d && d % 7 == dn && first ≤ d && (d - first) % step == 0
  | _, _ => []

/-- Modelled from the spec: resolution of one candidate date into an
instance.  No override → template's time/room/type verbatim, status
`scheduled`; `cancel` → still materialized, status `cancelled`,
`isOverridden = true`; `reschedule` → effective date/time/room from the
override's new* fields falling back to the template's, originals
captured; `modify` → same merge but the date stays the template's. -/
def buildInstance (t : Template) (ovs : List Override) (d : Nat) : ScheduleInst :=
  match resolve ovs t.id d with
  | none =>
      { recurringScheduleId := t.id
        overrideId := none
        classId := t.classId
        teacherId := t.teacherId
        occurrenceDate := d
        scheduledDate := d
        startTime := t.startTime
        endTime := t.endTime
        roomNumber := t.roomNumber
        sessionType := t.sessionType
        status := "scheduled"
        isOverridden := false
        originalStartTime := none
        originalEndTime := none
        originalRoomNumber := none
        overrideReason := none
        attendanceMarked := false
        attendanceCount := 0 }
  | some o =>
      if o.overrideType = "cancel" then
        { recurringScheduleId := t.id
          overrideId := some o.id
          classId := t.classId
          teacherId := t.teacherId
          occurrenceDate := d
          scheduledDate := d
          startTime := t.startTime
          endTime := t.endTime
          roomNumber := t.roomNumber
          sessionType := t.sessionType
          status := "cancelled"
          isOverridden := true
          originalStartTime := none
          originalEndTime := none
          originalRoomNumber := none
          overrideReason := some o.reason
          attendanceMarked := false
          attendanceCount := 0 }
      else
        { recurringScheduleId := t.id
          overrideId := some o.id
          classId := t.classId
          teacherId := t.teacherId
          occurrenceDate := d
          scheduledDate :=
            if o.overrideType = "reschedule" then o.newDate.getD d else d
          startTime := o.newStartTime.getD t.startTime
          endTime := o.newEndTime.getD t.endTime
          roomNumber := o.newRoomNumber.getD t.roomNumber
          sessionType := t.sessionType
          status := "scheduled"
          isOverridden := true
          originalStartTime := some t.startTime
          originalEndTime := some t.endTime
          originalRoomNumber := some t.roomNumber
          overrideReason := some o.reason
          attendanceMarked := false
          attendanceCount := 0 }

/-- The idempotency key of an instance: (template, occurrence date). -/
def instKey (i : ScheduleInst) : Nat × Nat :=
  (i.recurringScheduleId, i.occurrenceDate)

/-- First stored instance with the given key, the spec's
"lookup by (template, date) before insert". -/
def lookupInst (st : List ScheduleInst) (k : Nat × Nat) : Option ScheduleInst :=
  st.find? fun j => instKey j = k

/-- Modelled from the spec: store update for one resolved instance —
if an instance already exists for the key it is regenerated in place
(superseded) so the Resolver's latest exceptions win; otherwise the new
instance is inserted. -/
def upsertInst (i : ScheduleInst) : List ScheduleInst → List ScheduleInst
  | [] => [i]
  | j :: rest =>
      if instKey j = instKey i then i :: rest
      else j :: upsertInst i rest

/-- Modelled from the spec: `Expand(template, fromDate, toDate)` run
against a store of already-materialized instances — resolve each
candidate date and upsert the result. -/
def expand (t : Template) (ovs : List Override) (fromDate toDate : Nat)
    (st : List ScheduleInst) : List ScheduleInst :=
  (candidateDates t fromDate toDate).foldl
    (fun acc d => upsertInst (buildInstance t ovs d) acc) st

/-- The store invariant "at most one Instance per (template, date)":
the keys of the stored instances are pairwise distinct. -/
def keyNodup (st : List ScheduleInst) : Prop :=
  (st.map instKey).Nodup

/-! ## Override Resolver write path -/

/-- The conflict error of the spec's error model, raised when a write
would create a duplicate active override for a date. -/
inductive ConflictError where
  | duplicateActiveOverride
deriving DecidableEq, Repr

/-- The active overrides stored for a (template, date) key. -/
def activeAt (ovs : List Override) (tid d : Nat) : List Override :=
  ovs.filter fun p =>
    p.isActive && p.recurringScheduleId == tid && p.overrideDate == d

/-- Modelled from the spec: the Override Resolver's write path — a
second active override for the same (template, date) key is rejected at
write time with a conflict error rather than stored or silently
overwriting the first. -/
def addOverride (ovs : List Override) (o : Override) :
    Except ConflictError (List Override) :=
  if o.isActive &&
      ovs.any (fun p =>
        p.isActive && p.recurringScheduleId == o.recurringScheduleId &&
          p.overrideDate == o.overrideDate) then
    .error .duplicateActiveOverride
  else
    .ok (ovs ++ [o])

/-- "Exactly one active override per (template, date)" as an upper
bound: no key ever has two active overrides stored. -/
def singleActiveInvariant (ovs : List Override) : Prop :=
  ∀ tid d, (activeAt ovs tid d).length ≤ 1

/-! ## Merge Engine (`scheduleModel.js` merge metadata) -/

/-- One TimeSlot binding handed to `Merge`: slot id, `"HH:MM"` range,
and the day/room/teacher/class context the slots must share. -/
structure SlotBinding where
  timeSlotId : String
  startTime : String
  endTime : String
  dayOfWeek : String
  roomNumber : String
  teacherId : Nat
  classId : Nat
deriving DecidableEq, Repr

/-- One captured original slot, `scheduleSchema.originalSlots` entries:
`{ startTime, endTime, timeSlotId }`. -/
structure OriginalSlot where
  startTime : String
  endTime : String
  timeSlotId : String
deriving DecidableEq, Repr

/-- A manual `Schedule` entry (`scheduleSchema`) restricted to the
fields the Merge Engine reads and writes: temporal shape plus the merge
metadata `isMerged`, `mergedTimeSlots`, `customLabel`, `originalSlots`
and `mergedSessionRange`. -/
structure ScheduleEntry where
  classId : Nat
  teacherId : Nat
  sessionType : String
  dayOfWeek : String
  startTime : String
  endTime : String
  roomNumber : String
  isMerged : Bool
  mergedTimeSlots : List String
  customLabel : Option String
  originalSlots : List OriginalSlot
  mergedSessionRange : Option String
deriving DecidableEq, Repr

/-- Mongoose enum validation of `scheduleSchema` for the fields the
logic consumes: `sessionType` and `dayOfWeek` must lie in their
declared enums. -/
def validScheduleEntry (e : ScheduleEntry) : Bool :=
  ["lecture", "lab", "project"].contains e.sessionType &&
    validDayOfWeek e.dayOfWeek

/-- The validation failure of the spec's error model for malformed
merge input or an unsplittable entry. -/
inductive MergeFailure where
  | validationError
deriving DecidableEq, Repr

/-- Chronological contiguity: each slot's start equals the previous
slot's end. -/
def contiguousChain : List SlotBinding → Bool
  | [] => true
  | [_] => true
  | a :: b :: rest => a.endTime == b.startTime && contiguousChain (b :: rest)

/-- All slots share the first slot's day/room/teacher/class context. -/
def sharedContext (s0 : SlotBinding) (ss : List SlotBinding) : Bool :=
  ss.all fun s =>
    s.dayOfWeek == s0.dayOfWeek && s.roomNumber == s0.roomNumber &&
      s.teacherId == s0.teacherId && s.classId == s0.classId

/-- Modelled from the spec: `Merge(slots, label)` (the Merge Engine is
not in the repository source; only the schema is).  Requires a
nonempty, chronologically contiguous run of slots sharing
day/room/teacher/class; produces one entry spanning
`[first.start, last.end)`, captures each original slot for reversal,
and sets `isMerged = true`. -/
def mergeSlots (slots : List SlotBinding) (sessionType : String)
    (label : Option String) : Except MergeFailure ScheduleEntry :=
  match slots with
  | [] => .error .validationError
  | s0 :: rest =>
      if contiguousChain (s0 :: rest) && sharedContext s0 rest then
        let lastSlot := rest.getLastD s0
        .ok
          { classId := s0.classId
            teacherId := s0.teacherId
            sessionType := sessionType
            dayOfWeek := s0.dayOfWeek
            startTime := s0.startTime
            endTime := lastSlot.endTime
            roomNumber := s0.roomNumber
            isMerged := true
            mergedTimeSlots := (s0 :: rest).map (·.timeSlotId)
            customLabel := label
            originalSlots :=
              (s0 :: rest).map fun s => ⟨s.startTime, s.endTime, s.timeSlotId⟩
            mergedSessionRange := some (s0.startTime ++ "-" ++ lastSlot.endTime) }
      else .error .validationError

/-- Modelled from the spec: `Split(mergedEntry)` — reconstructs the
original entries strictly from `originalSlots`; fails when
`originalSlots` is empty or the entry is not marked merged. -/
def splitMerged (m : ScheduleEntry) : Except MergeFailure (List ScheduleEntry) :=
  if !m.isMerged then .error .validationError
  else
    match m.originalSlots with
    | [] => .error .validationError
    | os =>
        .ok (os.map fun o =>
          { classId := m.classId
            teacherId := m.teacherId
            sessionType := m.sessionType
            dayOfWeek := m.dayOfWeek
            startTime := o.startTime
            endTime := o.endTime
            roomNumber := m.roomNumber
            isMerged := false
            mergedTimeSlots := []
            customLabel := none
            originalSlots := []
            mergedSessionRange := none })

/-- The slot binding carried by a schedule entry, for re-merging a
sequence of split-off entries (the slot id is not part of an entry's
temporal shape and plays no role in the combined range). -/
def bindingOfEntry (e : ScheduleEntry) : SlotBinding :=
  { timeSlotId := ""
    startTime := e.startTime
    endTime := e.endTime
    dayOfWeek := e.dayOfWeek
    roomNumber := e.roomNumber
    teacherId := e.teacherId
    classId := e.classId }

/-- The slot bindings of a sequence of schedule entries. -/
def bindingsOfEntries (es : List ScheduleEntry) : List SlotBinding :=
  es.map bindingOfEntry

/-! ## TimeSlot duration (`timeSlotModel.js`) -/

/-- A `TimeSlot` document with its required fields present
(`timeSlotSchema`): name, `"HH:MM"` start/end, activity type, the
computed `duration` (absent until first computed), active flag and
daily order. -/
structure TimeSlot where
  name : String
  startTime : String
  endTime : String
  type : String
  duration : Option Int
  isActive : Bool
  order : Int
deriving DecidableEq, Repr

/-- Parse of `"HH:MM"` into minutes since midnight, as JavaScript's
`new Date("2000-01-01T" + time + ":00")` does: two digits, a colon, two
digits, hours below 24 and minutes below 60; `none` models an Invalid
Date (whose arithmetic is NaN). -/
def parseHHMM (s : String) : Option Nat :=
  match s.toList with
  | [h1, h2, ':', m1, m2] =>
      if h1.isDigit && h2.isDigit && m1.isDigit && m2.isDigit then
        let h := (h1.toNat - 48) * 10 + (h2.toNat - 48)
        let m := (m1.toNat - 48) * 10 + (m2.toNat - 48)
        if h ≤ 23 && m ≤ 59 then some (h * 60 + m) else none
      else none
  | _ => none

/-- `timeSlotSchema.methods.calculateDuration`: builds the two dates
`2000-01-01T<startTime>:00` and `2000-01-01T<endTime>:00` and returns
`(end - start) / (1000 * 60)` — the signed difference in whole minutes
(`none` models the NaN produced by an unparseable time). -/
def calculateDuration (t : TimeSlot) : Option Int :=
  match parseHHMM t.startTime, parseHHMM t.endTime with
  | some s, some e => some ((e : Int) - (s : Int))
  | _, _ => none

/-- The `timeSlotSchema.pre('save')` hook: when `startTime` or
`endTime` was modified, recompute `duration` via `calculateDuration`;
otherwise leave the document untouched. -/
def preSaveTimeSlot (t : TimeSlot) (startModified endModified : Bool) : TimeSlot :=
  if startModified || endModified then
    { t with duration := calculateDuration t }
  else t

/-- Mongoose validation of `timeSlotSchema` beyond field presence: only
the `type` enum is checked; no validator inspects the start/end values
or their order. -/
def validateTimeSlot (t : TimeSlot) : Bool :=
  ["lecture", "lab", "break"].contains t.type

/-! ## Concrete values used by witnesses -/

/-- A geofence predicate that accepts every location. -/
def geoAlways : GeoPoint → GeoPoint → Bool := fun _ _ => true

/-- A concrete payload snapshot. -/
def payloadA : QRPayload :=
  { classNumber := "C-301"
    subjectCode := "CS-301"
    subjectName := "Data Structures"
    classYear := "TE"
    semester := "VII"
    division := "A"
    timestamp := 0
    coordinates := ⟨10, 20⟩
    sessionId := "sess-A"
    token := "tok-A"
    }

/-- A concrete active session expiring at timestamp 1000. -/
def sessionA : QRSession :=
  { classId := 1
    teacherId := 2
    sessionId := "sess-A"
    currentToken := "tok-A"
    tokenGeneratedAt := 0
    sessionExpiresAt := 1000
    qrPayload := payloadA
    isActive := true
    location := ⟨10, 20⟩
    createdAt := 0 }

/-! ## Theorems -/

/-- **C1.** `ValidateScan` accepts exactly when the session is active,
`now` is strictly before `sessionExpiresAt`, the submitted token equals
`currentToken`, and the student is within the configured radius; each
failing condition, when it is the one that fails, yields its own
distinct rejection reason; and a correct-token, in-range scan on an
active session succeeds at `sessionExpiresAt - 1` yet fails with the
expiry reason at `sessionExpiresAt + 1`. -/
theorem validateScan_spec (wr : GeoPoint → GeoPoint → Bool) (s : QRSession)
    (tok : String) (loc : GeoPoint) (now : Int) :
    (validateScan wr s tok loc now = .accepted ↔
      s.isActive = true ∧ now < s.sessionExpiresAt ∧ tok = s.currentToken ∧
        wr loc s.location = true) ∧
    (s.isActive = false → validateScan wr s tok loc now = .inactiveSessionError) ∧
    (s.isActive = true → s.sessionExpiresAt ≤ now →
      validateScan wr s tok loc now = .sessionExpiredError) ∧
    (s.isActive = true → now < s.sessionExpiresAt → tok ≠ s.currentToken →
      validateScan wr s tok loc now = .invalidTokenError) ∧
    (s.isActive = true → now < s.sessionExpiresAt → tok = s.currentToken →
      wr loc s.location = false → validateScan wr s tok loc now = .outOfRangeError) ∧
    (s.isActive = true → tok = s.currentToken → wr loc s.location = true →
      validateScan wr s tok loc (s.sessionExpiresAt - 1) = .accepted ∧
        validateScan wr s tok loc (s.sessionExpiresAt + 1) = .sessionExpiredError) := by
  refine ⟨?_, ?_, ?_, ?_, ?_, ?_⟩
  · unfold validateScan
    split_ifs with h1 h2 h3 h4 <;> simp_all
  · intro hA
    simp [validateScan, hA]
  · intro hA hE
    simp [validateScan, hA, hE]
  · intro hA hE hT
    rw [validateScan, if_neg (by simp [hA]), if_neg (by omega), if_pos hT]
  · intro hA hE hT hR
    rw [validateScan, if_neg (by simp [hA]), if_neg (by omega),
      if_neg (by simp [hT]), if_pos (by simp [hR])]
  · intro hA hT hR
    constructor
    · rw [validateScan, if_neg (by simp [hA]), if_neg (by omega),
        if_neg (by simp [hT]), if_neg (by simp [hR])]
    · rw [validateScan, if_neg (by simp [hA]), if_pos (by omega)]

/-- Witness for C1 at a concrete session: a correct-token scan one
millisecond before expiry is accepted and one millisecond after expiry
is rejected as expired; a wrong token alone yields the invalid-token
reason. -/
theorem validateScan_spec_witness :
    validateScan geoAlways sessionA "tok-A" ⟨10, 20⟩ 999 = .accepted ∧
      validateScan geoAlways sessionA "tok-A" ⟨10, 20⟩ 1001 = .sessionExpiredError ∧
      validateScan geoAlways sessionA "bad" ⟨10, 20⟩ 500 = .invalidTokenError := by
  refine ⟨?_, ?_, ?_⟩
  · exact ((validateScan_spec geoAlways sessionA "tok-A" ⟨10, 20⟩ 999).2.2.2.2.2
      rfl rfl rfl).1
  · exact ((validateScan_spec geoAlways sessionA "tok-A" ⟨10, 20⟩ 1001).2.2.2.2.2
      rfl rfl rfl).2
  · exact (validateScan_spec geoAlways sessionA "bad" ⟨10, 20⟩ 500).2.2.2.1
      rfl (by decide) (by decide)

/-- **C6 counterexample.** The retention mechanism declared by
`qrCodeSessionModel.js` is the storage-level TTL index
`{ expireAfterSeconds: 60, partialFilterExpression: { isActive: false } }`,
not an explicit sweep function. -/
theorem retention_is_ttl_not_sweep :
    qrCodeSessionRetention = RetentionMechanism.ttlIndex 60 true ∧
      qrCodeSessionRetention.isExplicitSweep = false := by
  exact ⟨rfl, rfl⟩

/-- **C6 (amended).** Sessions are reclaimed by the schema's TTL index,
parameterized by the 60-second grace buffer and the `isActive: false`
partial filter: a session is eligible for deletion only once it is
closed and 60 seconds have elapsed past `sessionExpiresAt`; an active
session is never eligible; and the modelled business operations do not
delete — `Close` merely clears the active flag and `Rotate` keeps the
record. -/
theorem retention_ttl_spec (s : QRSession) (now : Int) (tok : String) :
    qrCodeSessionRetention = RetentionMechanism.ttlIndex 60 true ∧
    (ttlEligible s now = true →
      s.isActive = false ∧ s.sessionExpiresAt + 60 * 1000 ≤ now) ∧
    (s.isActive = true → ttlEligible s now = false) ∧
    ((close s).isActive = false ∧ (close s).sessionId = s.sessionId) ∧
    (rotate s tok now).sessionId = s.sessionId := by
  refine ⟨rfl, ?_, ?_, ⟨rfl, rfl⟩, rfl⟩
  · intro h
    simp only [ttlEligible, Bool.and_eq_true, Bool.not_eq_true',
      decide_eq_true_eq] at h
    exact h
  · intro hA
    simp [ttlEligible, hA]

/-- Witness for C6 (amended): the closed copy of the concrete session
is TTL-eligible at time 70000, hence inactive with the 60-second grace
elapsed. -/
theorem retention_ttl_spec_witness :
    (close sessionA).isActive = false ∧
      (close sessionA).sessionExpiresAt + 60 * 1000 ≤ 70000 :=
  (retention_ttl_spec (close sessionA) 70000 "tok-B").2.1 (by decide)

/-- **C7 counterexample.** A session document whose payload omits every
contract field — token, session id, class number and the rest all
absent — still passes `qrCodeSessionSchema` validation, so the payload
fields are not mandatory for persistence. -/
theorem qrPayload_absent_fields_persist :
    validateQRCodeSessionDoc sessionDocNoPayload = true ∧
      sessionDocNoPayload.qrPayload.token = none ∧
      sessionDocNoPayload.qrPayload.sessionId = none ∧
      sessionDocNoPayload.qrPayload.classNumber = none ∧
      sessionDocNoPayload.qrPayload.coordinates = none := by
  exact ⟨rfl, rfl, rfl, rfl, rfl⟩

/-- **C7 (amended).** The stored `qrPayload` snapshot declares all ten
contract fields, but none of them is required: schema validation is
independent of the payload, so a session may be persisted with any of
them absent. -/
theorem qrPayload_validation_independent (d : QRCodeSessionDoc) (p : QRPayloadDoc) :
    validateQRCodeSessionDoc { d with qrPayload := p } =
      validateQRCodeSessionDoc d := by
  rfl

/-- `rotateAll` never touches `sessionExpiresAt`. -/
theorem rotateAll_sessionExpiresAt (rs : List (String × Int)) (s : QRSession) :
    (rotateAll s rs).sessionExpiresAt = s.sessionExpiresAt := by
  induction rs generalizing s with
  | nil => rfl
  | cons r rs ih =>
      simp only [rotateAll, List.foldl_cons] at *
      rw [ih]
      rfl

/-- **C8.** `Rotate` invoked while `now < sessionExpiresAt` changes
only `currentToken`, `tokenGeneratedAt` and the payload's token field;
`sessionExpiresAt` and every other field of the session and of the
payload snapshot are unchanged, and no sequence of rotations ever moves
`sessionExpiresAt`. -/
theorem rotate_frame (s : QRSession) (tok : String) (now : Int)
    (h : now < s.sessionExpiresAt) :
    (rotate s tok now).currentToken = tok ∧
    (rotate s tok now).tokenGeneratedAt = now ∧
    (rotate s tok now).qrPayload.token = tok ∧
    (rotate s tok now).sessionExpiresAt = s.sessionExpiresAt ∧
    (rotate s tok now).classId = s.classId ∧
    (rotate s tok now).teacherId = s.teacherId ∧
    (rotate s tok now).sessionId = s.sessionId ∧
    (rotate s tok now).isActive = s.isActive ∧
    (rotate s tok now).location = s.location ∧
    (rotate s tok now).createdAt = s.createdAt ∧
    (rotate s tok now).qrPayload.classNumber = s.qrPayload.classNumber ∧
    (rotate s tok now).qrPayload.subjectCode = s.qrPayload.subjectCode ∧
    (rotate s tok now).qrPayload.subjectName = s.qrPayload.subjectName ∧
    (rotate s tok now).qrPayload.classYear = s.qrPayload.classYear ∧
    (rotate s tok now).qrPayload.semester = s.qrPayload.semester ∧
    (rotate s tok now).qrPayload.division = s.qrPayload.division ∧
    (rotate s tok now).qrPayload.timestamp = s.qrPayload.timestamp ∧
    (rotate s tok now).qrPayload.coordinates = s.qrPayload.coordinates ∧
    (rotate s tok now).qrPayload.sessionId = s.qrPayload.sessionId ∧
    (∀ rs, (rotateAll s rs).sessionExpiresAt = s.sessionExpiresAt) := by
  refine ⟨rfl, rfl, rfl, rfl, rfl, rfl, rfl, rfl, rfl, rfl, rfl, rfl, rfl, rfl,
    rfl, rfl, rfl, rfl, rfl, ?_⟩
  intro rs
  exact rotateAll_sessionExpiresAt rs s

/-- Witness for C8 at the concrete session: a rotation at time 500
(before expiry at 1000) leaves `sessionExpiresAt` at 1000, and a whole
cadence of three further rotations still leaves it at 1000. -/
theorem rotate_frame_witness :
    (rotate sessionA "tok-B" 500).sessionExpiresAt = sessionA.sessionExpiresAt ∧
      (rotateAll sessionA [("t1", 100), ("t2", 200), ("t3", 300)]).sessionExpiresAt =
        sessionA.sessionExpiresAt := by
  have h := rotate_frame sessionA "tok-B" 500 (by decide)
  exact ⟨h.2.2.2.1, h.2.2.2.2.2.2.2.2.2.2.2.2.2.2.2.2.2.2.2
    [("t1", 100), ("t2", 200), ("t3", 300)]⟩

/-- A concrete valid weekly Monday template over days 0–30. -/
def templateA : Template :=
  { id := 1
    classId := 1
    teacherId := 2
    title := "CS201 - BDA Lecture"
    sessionType := "lecture"
    dayOfWeek := "Monday"
    startTime := "09:00"
    endTime := "10:00"
    roomNumber := "C-204"
    semesterStartDate := 0
    semesterEndDate := 30
    isRecurring := true
    frequency := "weekly"
    isActive := true }

/-- A concrete manual schedule entry. -/
def entryA : ScheduleEntry :=
  { classId := 1
    teacherId := 2
    sessionType := "lecture"
    dayOfWeek := "Monday"
    startTime := "09:00"
    endTime := "10:00"
    roomNumber := "C-204"
    isMerged := false
    mergedTimeSlots := []
    customLabel := none
    originalSlots := []
    mergedSessionRange := none }

/-- **C9 (amended).** `"Sunday"` is outside the shared `dayOfWeek`
enum, so no template or manual schedule entry that passes validation
carries it, and every *occurrence* date the Expander materializes for a
valid template has a non-Sunday weekday.  (The effective
`scheduledDate` of an instance is not so constrained: a reschedule
override's `newDate` may move it onto a Sunday.) -/
theorem no_sunday_admissible (t : Template) (e : ScheduleEntry) (a b d : Nat) :
    validDayOfWeek "Sunday" = false ∧
    (validTemplate t = true → t.dayOfWeek ≠ "Sunday") ∧
    (validScheduleEntry e = true → e.dayOfWeek ≠ "Sunday") ∧
    (validTemplate t = true → d ∈ candidateDates t a b → d % 7 ≠ sundayNumber) := by
  refine ⟨rfl, ?_, ?_, ?_⟩
  · intro hv hs
    simp [validTemplate, validDayOfWeek, scheduleDayEnum, hs] at hv
  · intro hv hs
    simp [validScheduleEntry, validDayOfWeek, scheduleDayEnum, hs] at hv
  · intro hv hd
    simp only [validTemplate, Bool.and_eq_true] at hv
    obtain ⟨⟨-, hday⟩, hfreq⟩ := hv
    simp only [validDayOfWeek, scheduleDayEnum] at hday
    simp at hday hfreq
    have hstep : stepOf t.frequency = some 7 ∨ stepOf t.frequency = some 14 := by
      rcases hfreq with h | h
      · left; simp [stepOf, h]
      · right; simp [stepOf, h]
    have hnum : ∃ dn, dayNumber t.dayOfWeek = some dn ∧ dn < 6 := by
      rcases hday with h | h | h | h | h | h <;> rw [h] <;>
        exact ⟨_, rfl, by decide⟩
    obtain ⟨dn, hdn, hlt⟩ := hnum
    rcases hstep with hs | hs <;>
    · rw [candidateDates, hdn, hs] at hd
      simp only [List.mem_filter, List.mem_range, Bool.and_eq_true,
        decide_eq_true_eq, beq_iff_eq, sundayNumber] at hd ⊢
      omega

/-- Witness for C9: the concrete Monday template is valid and day 7 (a
Monday) lies in its expansion; its weekday is not Sunday's. -/
theorem no_sunday_admissible_witness :
    validTemplate templateA = true ∧ 7 ∈ candidateDates templateA 0 30 ∧
      7 % 7 ≠ sundayNumber :=
  ⟨by decide, by decide,
    (no_sunday_admissible templateA entryA 0 30 7).2.2.2 (by decide) (by decide)⟩

/-- A valid, active reschedule override moving the Monday occurrence of
day 7 to day 13 — a Sunday (day 0 is a Monday, so 13 % 7 = 6). -/
def overrideReschedSun : Override :=
  { id := 12
    recurringScheduleId := 1
    classId := 1
    teacherId := 2
    overrideDate := 7
    overrideType := "reschedule"
    newStartTime := none
    newEndTime := none
    newRoomNumber := none
    newDate := some 13
    reason := "Makeup class"
    isActive := true }

/-- **C9 counterexample.** An expanded Instance *can* fall on a Sunday:
the valid Monday template, expanded against a valid active reschedule
override whose `newDate` is the Sunday day 13, yields an instance in
the store whose effective `scheduledDate` has Sunday's weekday —
nothing in the schemas or the spec constrains `newDate`'s weekday. -/
theorem sunday_rescheduled_instance_exists :
    validTemplate templateA = true ∧
      validOverride overrideReschedSun = true ∧
      ∃ i, i ∈ expand templateA [overrideReschedSun] 0 30 [] ∧
        i.scheduledDate % 7 = sundayNumber :=
  ⟨by decide, by decide,
    buildInstance templateA [overrideReschedSun] 7, by decide, by decide⟩

/-- A concrete time slot whose end precedes its start. -/
def tSlotInv : TimeSlot :=
  { name := "1st Period"
    startTime := "10:00"
    endTime := "09:00"
    type := "lecture"
    duration := none
    isActive := true
    order := 1 }

/-- **C10.** Whenever a save modifies `startTime` or `endTime`, the
pre-save hook stores `duration = calculateDuration` — the signed
end-minus-start difference in whole minutes; validation never inspects
the time values, so an inverted range passes and yields a negative
stored duration. -/
theorem timeSlot_duration_hook (t : TimeSlot) (sm em : Bool)
    (h : sm = true ∨ em = true) :
    (preSaveTimeSlot t sm em).duration = calculateDuration t ∧
    (∀ a b, validateTimeSlot { t with startTime := a, endTime := b } =
      validateTimeSlot t) ∧
    (∀ ms me, parseHHMM t.startTime = some ms → parseHHMM t.endTime = some me →
      me < ms → ∃ dur, calculateDuration t = some dur ∧ dur < 0) := by
  refine ⟨?_, fun a b => rfl, ?_⟩
  · rcases h with h | h <;> simp [preSaveTimeSlot, h]
  · intro ms me hs he hlt
    refine ⟨(me : Int) - (ms : Int), ?_, by omega⟩
    rw [calculateDuration, hs, he]

/-- Witness for C10: saving the inverted `10:00 → 09:00` slot with a
modified start stores duration `-60`, and the slot passes validation. -/
theorem timeSlot_duration_hook_witness :
    (preSaveTimeSlot tSlotInv true false).duration = calculateDuration tSlotInv ∧
      (∃ dur, calculateDuration tSlotInv = some dur ∧ dur < 0) ∧
      validateTimeSlot tSlotInv = true := by
  have h := timeSlot_duration_hook tSlotInv true false (Or.inl rfl)
  exact ⟨h.1, h.2.2 600 540 (by decide) (by decide) (by decide), by decide⟩

/-- A concrete active cancel override for template 1, date 14. -/
def overrideCancelA : Override :=
  { id := 10
    recurringScheduleId := 1
    classId := 1
    teacherId := 2
    overrideDate := 14
    overrideType := "cancel"
    newStartTime := none
    newEndTime := none
    newRoomNumber := none
    newDate := none
    reason := "Holiday"
    isActive := true }

/-- A second active override for the same (template, date) key. -/
def overrideCancelB : Override :=
  { overrideCancelA with id := 11, overrideType := "modify", reason := "Makeup" }

/-- **C3.** The Override Resolver's write path keeps at most one active
override per (template, date): a successful write preserves the
invariant, and a write of a second active override for an occupied key
is rejected with the duplicate-active-override conflict error rather
than stored. -/
theorem override_single_active (ovs : List Override) (o : Override)
    (hinv : singleActiveInvariant ovs) :
    (∀ ovs2, addOverride ovs o = .ok ovs2 → singleActiveInvariant ovs2) ∧
    (o.isActive = true →
      activeAt ovs o.recurringScheduleId o.overrideDate ≠ [] →
        addOverride ovs o = .error .duplicateActiveOverride) := by
  constructor
  · intro ovs2 hok tid d
    rw [addOverride] at hok
    split_ifs at hok with hc
    injection hok with h2
    subst h2
    have hsplit : activeAt (ovs ++ [o]) tid d
        = activeAt ovs tid d ++ activeAt [o] tid d := List.filter_append _ _
    rw [hsplit, List.length_append]
    by_cases hm :
        (o.isActive && o.recurringScheduleId == tid && o.overrideDate == d) = true
    · have h0 : activeAt ovs tid d = [] := by
        rw [activeAt, List.filter_eq_nil_iff]
        intro p hp hpm
        apply hc
        simp only [Bool.and_eq_true, beq_iff_eq] at hm hpm ⊢
        refine ⟨hm.1.1, ?_⟩
        rw [List.any_eq_true]
        refine ⟨p, hp, ?_⟩
        simp only [Bool.and_eq_true, beq_iff_eq]
        exact ⟨⟨hpm.1.1, hpm.1.2.trans hm.1.2.symm⟩, hpm.2.trans hm.2.symm⟩
      rw [h0]
      simp [activeAt, List.filter, hm]
    · have h1 : activeAt [o] tid d = [] := by
        simp only [activeAt, List.filter_eq_nil_iff, List.mem_singleton]
        rintro p rfl
        exact fun hpm => hm hpm
      rw [h1]
      simpa using hinv tid d
  · intro hA hne
    obtain ⟨q, hq⟩ := List.exists_mem_of_ne_nil _ hne
    rw [activeAt, List.mem_filter] at hq
    have hcond : (o.isActive && ovs.any fun p =>
        p.isActive && p.recurringScheduleId == o.recurringScheduleId &&
          p.overrideDate == o.overrideDate) = true := by
      rw [Bool.and_eq_true, List.any_eq_true]
      exact ⟨hA, q, hq.1, hq.2⟩
    rw [addOverride, if_pos hcond]

/-- Witness for C3: inserting the first active override for (1, 14)
into an empty store succeeds and keeps the invariant; inserting a
second active override for the same key is rejected with the conflict
error. -/
theorem override_single_active_witness :
    addOverride [] overrideCancelA = .ok [overrideCancelA] ∧
      singleActiveInvariant [overrideCancelA] ∧
      addOverride [overrideCancelA] overrideCancelB =
        .error .duplicateActiveOverride := by
  have hinv0 : singleActiveInvariant [] := by
    intro tid d
    simp [activeAt]
  have hinv1 : singleActiveInvariant [overrideCancelA] := by
    intro tid d
    exact List.length_filter_le _ _
  refine ⟨rfl, ?_, ?_⟩
  · exact (override_single_active [] overrideCancelA hinv0).1 [overrideCancelA] rfl
  · exact (override_single_active [overrideCancelA] overrideCancelB hinv1).2
      rfl (by decide)

/-- Every branch of `buildInstance` keys the instance by
(template, occurrence date). -/
theorem buildInstance_key (t : Template) (ovs : List Override) (d : Nat) :
    instKey (buildInstance t ovs d) = (t.id, d) := by
  cases hres : resolve ovs t.id d with
  | none => simp [buildInstance, hres, instKey]
  | some o =>
      by_cases h : o.overrideType = "cancel" <;>
        simp [buildInstance, hres, h, instKey]

/-- After an upsert, lookup at the upserted key finds the new
instance. -/
theorem lookupInst_upsert_self (i : ScheduleInst) (st : List ScheduleInst) :
    lookupInst (upsertInst i st) (instKey i) = some i := by
  induction st with
  | nil => simp [upsertInst, lookupInst]
  | cons j rest ih =>
      rw [upsertInst]
      split_ifs with h
      · simp [lookupInst]
      · rw [lookupInst, List.find?_cons_of_neg _ (by simpa using h)]
        exact ih

/-- An upsert leaves lookups at every other key unchanged. -/
theorem lookupInst_upsert_other (i : ScheduleInst) (st : List ScheduleInst)
    (k : Nat × Nat) (hk : instKey i ≠ k) :
    lookupInst (upsertInst i st) k = lookupInst st k := by
  induction st with
  | nil =>
      rw [upsertInst, lookupInst, lookupInst]
      simp [hk]
  | cons j rest ih =>
      rw [upsertInst]
      split_ifs with h
      · have hj : instKey j ≠ k := by rw [h]; exact hk
        rw [lookupInst, lookupInst, List.find?_cons_of_neg _ (by simpa using hk),
          List.find?_cons_of_neg _ (by simpa using hj)]
      · by_cases hk2 : instKey j = k
        · rw [lookupInst, lookupInst, List.find?_cons_of_pos _ (by simpa using hk2),
            List.find?_cons_of_pos _ (by simpa using hk2)]
        · rw [lookupInst, lookupInst, List.find?_cons_of_neg _ (by simpa using hk2),
            List.find?_cons_of_neg _ (by simpa using hk2)]
          exact ih

/-- Upserting an instance the store already holds at its key (the
spec's "lookup by (template, date) before insert") changes nothing. -/
theorem upsertInst_of_lookup (i : ScheduleInst) (st : List ScheduleInst)
    (h : lookupInst st (instKey i) = some i) : upsertInst i st = st := by
  induction st with
  | nil => simp [lookupInst] at h
  | cons j rest ih =>
      by_cases hk : instKey j = instKey i
      · rw [lookupInst, List.find?_cons_of_pos _ (by simpa using hk)] at h
        injection h with h
        rw [upsertInst, if_pos hk, h]
      · rw [lookupInst, List.find?_cons_of_neg _ (by simpa using hk)] at h
        rw [upsertInst, if_neg hk, ih h]

/-- Expanding dates other than `k`'s does not disturb the lookup at
`k`. -/
theorem lookup_expand_not_mem (t : Template) (ovs : List Override)
    (ds : List Nat) :
    ∀ st (k : Nat × Nat), (∀ d ∈ ds, (t.id, d) ≠ k) →
      lookupInst (ds.foldl (fun acc d => upsertInst (buildInstance t ovs d) acc) st) k
        = lookupInst st k := by
  induction ds with
  | nil => intro st k _; rfl
  | cons d0 rest ih =>
      intro st k hk
      rw [List.foldl_cons, ih _ _ (fun d hd => hk d (List.mem_cons_of_mem _ hd))]
      exact lookupInst_upsert_other _ _ _
        (by rw [buildInstance_key]; exact hk d0 (List.mem_cons_self _ _))

/-- After expansion over distinct dates, lookup at each expanded
(template, date) key finds exactly the resolved instance. -/
theorem lookup_expand_mem (t : Template) (ovs : List Override) (ds : List Nat) :
    ∀ st d, d ∈ ds → ds.Nodup →
      lookupInst (ds.foldl (fun acc d => upsertInst (buildInstance t ovs d) acc) st)
        (t.id, d) = some (buildInstance t ovs d) := by
  induction ds with
  | nil => intro st d hd _; cases hd
  | cons d0 rest ih =>
      intro st d hd hnd
      rw [List.foldl_cons]
      rcases List.mem_cons.1 hd with rfl | hmem
      · have hnotin : d ∉ rest := (List.nodup_cons.1 hnd).1
        rw [lookup_expand_not_mem t ovs rest _ _ ?_]
        · rw [← buildInstance_key t ovs d]
          exact lookupInst_upsert_self _ _
        · intro d2 hd2 heq
          have : d2 = d := by
            have := congrArg Prod.snd heq
            simpa using this
          exact hnotin (this ▸ hd2)
      · exact ih _ d hmem (List.nodup_cons.1 hnd).2

/-- A fold of upserts over dates whose resolved instances are already
in place is the identity. -/
theorem expand_foldl_fixed (t : Template) (ovs : List Override) (ds : List Nat) :
    ∀ st, (∀ d ∈ ds, lookupInst st (t.id, d) = some (buildInstance t ovs d)) →
      ds.foldl (fun acc d => upsertInst (buildInstance t ovs d) acc) st = st := by
  induction ds with
  | nil => intro st _; rfl
  | cons d0 rest ih =>
      intro st hst
      rw [List.foldl_cons,
        upsertInst_of_lookup _ _
          (by rw [buildInstance_key t ovs d0]; exact hst d0 (List.mem_cons_self _ _))]
      exact ih st (fun d hd => hst d (List.mem_cons_of_mem _ hd))

/-- The Expander's candidate dates are pairwise distinct. -/
theorem candidateDates_nodup (t : Template) (a b : Nat) :
    (candidateDates t a b).Nodup := by
  unfold candidateDates
  cases dayNumber t.dayOfWeek with
  | none => exact List.nodup_nil
  | some dn =>
      cases stepOf t.frequency with
      | none => exact List.nodup_nil
      | some step => exact (List.nodup_range _).filter _

/-- Keys present after an upsert were present before or are the
upserted key. -/
theorem upsertInst_keys_sub (i : ScheduleInst) (st : List ScheduleInst)
    (k : Nat × Nat) (hk : k ∈ (upsertInst i st).map instKey) :
    k ∈ st.map instKey ∨ k = instKey i := by
  induction st with
  | nil =>
      rw [upsertInst] at hk
      simp at hk
      exact Or.inr hk
  | cons j rest ih =>
      rw [upsertInst] at hk
      split_ifs at hk with h
      · rw [List.map_cons] at hk
        rcases List.mem_cons.1 hk with heq | hm
        · exact Or.inr heq
        · exact Or.inl (by rw [List.map_cons]; exact List.mem_cons_of_mem _ hm)
      · rw [List.map_cons] at hk
        rcases List.mem_cons.1 hk with heq | hm
        · exact Or.inl (by rw [List.map_cons, heq]; exact List.mem_cons_self _ _)
        · rcases ih hm with hm2 | hm2
          · exact Or.inl (by rw [List.map_cons]; exact List.mem_cons_of_mem _ hm2)
          · exact Or.inr hm2

/-- An upsert preserves the at-most-one-instance-per-key invariant. -/
theorem keyNodup_upsertInst (i : ScheduleInst) (st : List ScheduleInst)
    (h : keyNodup st) : keyNodup (upsertInst i st) := by
  induction st with
  | nil => simp [upsertInst, keyNodup]
  | cons j rest ih =>
      rw [keyNodup, List.map_cons, List.nodup_cons] at h
      obtain ⟨hj, hrest⟩ := h
      rw [keyNodup, upsertInst]
      split_ifs with heq
      · rw [List.map_cons, List.nodup_cons]
        exact ⟨by rw [← heq]; exact hj, hrest⟩
      · rw [List.map_cons, List.nodup_cons]
        refine ⟨?_, ih hrest⟩
        intro hmem
        rcases upsertInst_keys_sub i rest _ hmem with hm | hm
        · exact hj hm
        · exact heq hm

/-- The whole expansion fold preserves the key invariant. -/
theorem keyNodup_expand_foldl (t : Template) (ovs : List Override) (ds : List Nat) :
    ∀ st, keyNodup st →
      keyNodup (ds.foldl (fun acc d => upsertInst (buildInstance t ovs d) acc) st) := by
  induction ds with
  | nil => intro st h; exact h
  | cons d0 rest ih =>
      intro st h
      rw [List.foldl_cons]
      exact ih _ (keyNodup_upsertInst _ _ h)

/-- **C2.** Expansion is idempotent: expanding a range a second time
over the store produced by the first expansion changes nothing, and
expansion never introduces a duplicate instance for a (template, date)
key — a store satisfying the at-most-one-instance-per-key invariant
still satisfies it after expansion. -/
theorem expand_idempotent (t : Template) (ovs : List Override) (a b : Nat)
    (st : List ScheduleInst) (hnd : keyNodup st) :
    expand t ovs a b (expand t ovs a b st) = expand t ovs a b st ∧
      keyNodup (expand t ovs a b st) := by
  constructor
  · simp only [expand]
    apply expand_foldl_fixed
    intro d hd
    exact lookup_expand_mem t ovs (candidateDates t a b) st d hd
      (candidateDates_nodup t a b)
  · rw [expand]
    exact keyNodup_expand_foldl t ovs _ st hnd

/-- Witness for C2: expanding the concrete Monday template twice over
days 0–30 from the empty store equals expanding once, and the result
has pairwise-distinct (template, date) keys. -/
theorem expand_idempotent_witness :
    expand templateA [] 0 30 (expand templateA [] 0 30 []) =
        expand templateA [] 0 30 [] ∧
      keyNodup (expand templateA [] 0 30 []) :=
  expand_idempotent templateA [] 0 30 [] (by simp [keyNodup])

/-- **C4.** A candidate date carrying an active cancel override is
still materialized: the expanded store contains an instance for that
(template, date) key, with status `cancelled` and `isOverridden =
true`. -/
theorem cancel_override_materialized (t : Template) (ovs : List Override)
    (a b d : Nat) (st : List ScheduleInst) (o : Override)
    (hd : d ∈ candidateDates t a b)
    (ho : resolve ovs t.id d = some o)
    (hc : o.overrideType = "cancel") :
    ∃ i, i ∈ expand t ovs a b st ∧ i.recurringScheduleId = t.id ∧
      i.occurrenceDate = d ∧ i.status = "cancelled" ∧ i.isOverridden = true := by
  refine ⟨buildInstance t ovs d, ?_, ?_, ?_, ?_, ?_⟩
  · have hl := lookup_expand_mem t ovs (candidateDates t a b) st d hd
      (candidateDates_nodup t a b)
    rw [expand]
    exact List.mem_of_find?_eq_some hl
  · have := buildInstance_key t ovs d
    exact congrArg Prod.fst this
  · have := buildInstance_key t ovs d
    exact congrArg Prod.snd this
  · simp [buildInstance, ho, hc]
  · simp [buildInstance, ho, hc]

/-- Witness for C4: expanding the concrete template against the active
cancel override on day 14 yields a cancelled, overridden instance for
(template 1, day 14). -/
theorem cancel_override_materialized_witness :
    ∃ i, i ∈ expand templateA [overrideCancelA] 0 30 [] ∧
      i.recurringScheduleId = templateA.id ∧ i.occurrenceDate = 14 ∧
      i.status = "cancelled" ∧ i.isOverridden = true :=
  cancel_override_materialized templateA [overrideCancelA] 0 30 14 []
    overrideCancelA (by decide) (by decide) rfl

/-- The binding a split-off entry contributes when re-merged, in the
context (day/room/teacher/class) of the merged entry's first slot. -/
def reboundSlot (c : SlotBinding) (s : SlotBinding) : SlotBinding :=
  { timeSlotId := ""
    startTime := s.startTime
    endTime := s.endTime
    dayOfWeek := c.dayOfWeek
    roomNumber := c.roomNumber
    teacherId := c.teacherId
    classId := c.classId }

/-- Contiguity depends only on start/end times, which rebinding
preserves. -/
theorem contiguousChain_map (F : SlotBinding → SlotBinding)
    (hF : ∀ s, (F s).startTime = s.startTime ∧ (F s).endTime = s.endTime) :
    ∀ l, contiguousChain (l.map F) = contiguousChain l := by
  intro l
  induction l with
  | nil => rfl
  | cons a l2 ih =>
      cases l2 with
      | nil => rfl
      | cons b l3 =>
          show ((F a).endTime == (F b).startTime &&
              contiguousChain ((b :: l3).map F))
            = (a.endTime == b.startTime && contiguousChain (b :: l3))
          rw [(hF a).2, (hF b).1, ih]

/-- `getLastD` commutes with `map`. -/
theorem getLastD_map (F : SlotBinding → SlotBinding) (l : List SlotBinding)
    (d : SlotBinding) : (l.map F).getLastD (F d) = F (l.getLastD d) := by
  induction l generalizing d with
  | nil => rfl
  | cons a l2 ih =>
      rw [List.map_cons, List.getLastD_cons, List.getLastD_cons]
      exact ih a

/-- The merged entry a valid nonempty run of slots produces. -/
theorem mergeSlots_cons_ok (s0 : SlotBinding) (rest : List SlotBinding)
    (stype : String) (lbl : Option String)
    (h : (contiguousChain (s0 :: rest) && sharedContext s0 rest) = true) :
    mergeSlots (s0 :: rest) stype lbl = .ok
      { classId := s0.classId
        teacherId := s0.teacherId
        sessionType := stype
        dayOfWeek := s0.dayOfWeek
        startTime := s0.startTime
        endTime := (rest.getLastD s0).endTime
        roomNumber := s0.roomNumber
        isMerged := true
        mergedTimeSlots := (s0 :: rest).map (·.timeSlotId)
        customLabel := lbl
        originalSlots := (s0 :: rest).map fun s => ⟨s.startTime, s.endTime, s.timeSlotId⟩
        mergedSessionRange :=
          some (s0.startTime ++ "-" ++ (rest.getLastD s0).endTime) } := by
  simp only [mergeSlots]
  rw [if_pos h]

/-- The entries a merged record splits into. -/
theorem splitMerged_cons_ok (m : ScheduleEntry) (o0 : OriginalSlot)
    (os : List OriginalSlot) (hM : m.isMerged = true)
    (hos : m.originalSlots = o0 :: os) :
    splitMerged m = .ok ((o0 :: os).map fun o =>
      { classId := m.classId
        teacherId := m.teacherId
        sessionType := m.sessionType
        dayOfWeek := m.dayOfWeek
        startTime := o.startTime
        endTime := o.endTime
        roomNumber := m.roomNumber
        isMerged := false
        mergedTimeSlots := []
        customLabel := none
        originalSlots := []
        mergedSessionRange := none }) := by
  rw [splitMerged, hM]
  simp only [Bool.not_true]
  rw [if_neg (by simp), hos]

/-- **C5.** For every merged entry produced by `Merge`: `Split`
succeeds, re-`Merge` of the resulting entries reproduces the combined
range exactly (same start, end and range string); and `Split` fails
with the validation error on any entry not marked merged or whose
`originalSlots` is empty. -/
theorem merge_split_round_trip (slots : List SlotBinding) (stype : String)
    (lbl : Option String) (m : ScheduleEntry)
    (hm : mergeSlots slots stype lbl = .ok m) :
    (∃ es, splitMerged m = .ok es ∧
      ∃ m2, mergeSlots (bindingsOfEntries es) stype lbl = .ok m2 ∧
        m2.startTime = m.startTime ∧ m2.endTime = m.endTime ∧
        m2.mergedSessionRange = m.mergedSessionRange) ∧
    (∀ e : ScheduleEntry, e.isMerged = false →
      splitMerged e = .error .validationError) ∧
    (∀ e : ScheduleEntry, e.originalSlots = [] →
      splitMerged e = .error .validationError) := by
  refine ⟨?_, ?_, ?_⟩
  · cases slots with
    | nil => simp [mergeSlots] at hm
    | cons s0 rest =>
        simp only [mergeSlots] at hm
        split_ifs at hm with hcond
        injection hm with hm
        subst hm
        have hcond2 := hcond
        rw [Bool.and_eq_true] at hcond2
        obtain ⟨hcc, hsc⟩ := hcond2
        refine ⟨_, splitMerged_cons_ok _ _ _ rfl rfl, ?_⟩
        have hes : bindingsOfEntries
            (((s0 :: rest).map fun s =>
                (⟨s.startTime, s.endTime, s.timeSlotId⟩ : OriginalSlot)).map fun o =>
              ({ classId := s0.classId
                 teacherId := s0.teacherId
                 sessionType := stype
                 dayOfWeek := s0.dayOfWeek
                 startTime := o.startTime
                 endTime := o.endTime
                 roomNumber := s0.roomNumber
                 isMerged := false
                 mergedTimeSlots := []
                 customLabel := none
                 originalSlots := []
                 mergedSessionRange := none } : ScheduleEntry))
            = (s0 :: rest).map (reboundSlot s0) := by
          rw [bindingsOfEntries, List.map_map, List.map_map]
          rfl
        have hF : ∀ s, (reboundSlot s0 s).startTime = s.startTime ∧
            (reboundSlot s0 s).endTime = s.endTime := fun s => ⟨rfl, rfl⟩
        have hcondF : (contiguousChain (reboundSlot s0 s0 :: rest.map (reboundSlot s0)) &&
            sharedContext (reboundSlot s0 s0) (rest.map (reboundSlot s0))) = true := by
          rw [Bool.and_eq_true]
          constructor
          · show contiguousChain ((s0 :: rest).map (reboundSlot s0)) = true
            rw [contiguousChain_map (reboundSlot s0) hF]
            exact hcc
          · rw [sharedContext, List.all_eq_true]
            intro x hx
            obtain ⟨s, _, rfl⟩ := List.mem_map.1 hx
            simp [reboundSlot]
        have hmerge := mergeSlots_cons_ok (reboundSlot s0 s0)
          (rest.map (reboundSlot s0)) stype lbl hcondF
        rw [← List.map_cons, ← hes] at hmerge
        refine ⟨_, hmerge, ?_, ?_, ?_⟩
        · rfl
        · show ((rest.map (reboundSlot s0)).getLastD (reboundSlot s0 s0)).endTime
            = (rest.getLastD s0).endTime
          rw [getLastD_map]
          rfl
        · show some ((reboundSlot s0 s0).startTime ++ "-" ++
              ((rest.map (reboundSlot s0)).getLastD (reboundSlot s0 s0)).endTime)
            = some (s0.startTime ++ "-" ++ (rest.getLastD s0).endTime)
          rw [getLastD_map]
          rfl
  · intro e he
    rw [splitMerged, he]
    rw [if_pos (by simp)]
  · intro e he
    rw [splitMerged, he]
    by_cases hM : e.isMerged
    · rw [hM]
      simp only [Bool.not_true]
      rw [if_neg (by simp)]
    · rw [if_pos (by simp [hM])]

/-- First concrete slot of a contiguous pair. -/
def slotP1 : SlotBinding :=
  { timeSlotId := "TS1"
    startTime := "09:00"
    endTime := "10:00"
    dayOfWeek := "Monday"
    roomNumber := "C-204"
    teacherId := 2
    classId := 1 }

/-- Second concrete slot, starting where the first ends. -/
def slotP2 : SlotBinding :=
  { slotP1 with timeSlotId := "TS2", startTime := "10:00", endTime := "11:00" }

/-- The merged entry produced from the two concrete slots. -/
def mergedAB : ScheduleEntry :=
  { classId := 1
    teacherId := 2
    sessionType := "lab"
    dayOfWeek := "Monday"
    startTime := "09:00"
    endTime := "11:00"
    roomNumber := "C-204"
    isMerged := true
    mergedTimeSlots := ["TS1", "TS2"]
    customLabel := some "Lab Session"
    originalSlots := [⟨"09:00", "10:00", "TS1"⟩, ⟨"10:00", "11:00", "TS2"⟩]
    mergedSessionRange := some "09:00-11:00" }

/-- Witness for C5: the 09:00–10:00 and 10:00–11:00 slots merge into
the 09:00–11:00 entry; splitting it and re-merging reproduces the
combined range, and splitting an unmerged entry fails. -/
theorem merge_split_round_trip_witness :
    (∃ es, splitMerged mergedAB = .ok es ∧
      ∃ m2, mergeSlots (bindingsOfEntries es) "lab" (some "Lab Session") = .ok m2 ∧
        m2.startTime = mergedAB.startTime ∧ m2.endTime = mergedAB.endTime ∧
        m2.mergedSessionRange = mergedAB.mergedSessionRange) ∧
      splitMerged entryA = .error .validationError := by
  have h := merge_split_round_trip [slotP1, slotP2] "lab" (some "Lab Session")
    mergedAB rfl
  exact ⟨h.1, h.2.1 entryA rfl⟩

end QRAttendance
